import Mathlib

/-!
A shallow embedding of the ProGrader application (src/main.py): the
template store, the document extractor, and the two suggestion
strategies (mock and remote), together with proofs of the specified
properties.  Python dicts are modelled as association lists with
Python's insertion semantics, raised errors as `none`/`Option`, the
random stream and the network as explicit oracles.
-/

/-- A grading question: its text plus its multiple-choice options
(the `\x7b"question": ..., "options": [...]\x7d` records of the source). -/
structure Question where
  question : String
  options : List String
deriving DecidableEq

/-- A template is an ordered sequence of questions. -/
abbrev Template := List Question

/-- Python dict assignment `d[k] = v`: updating an existing key keeps its
position in insertion order, a new key is appended at the end. -/
def dictInsert {κ α : Type} [BEq κ] (d : List (κ × α)) (k : κ) (v : α) : List (κ × α) :=
  if d.any (fun p => p.1 == k) then
    d.map (fun p => if p.1 == k then (k, v) else p)
  else
    d ++ [(k, v)]

/-- Python dict lookup `d[k]` (first — and, for dicts built with
`dictInsert`, only — entry with the key). -/
def dictGet {κ α : Type} [BEq κ] (k : κ) : List (κ × α) → Option α
  | [] => none
  | p :: rest => if p.1 == k then some p.2 else dictGet k rest

/-- Keys of an association list, in order. -/
def keysOf {κ α : Type} (d : List (κ × α)) : List κ := d.map Prod.fst

/-- Folding Python dict assignment over a list of key/value pairs. -/
def dictFold {κ α : Type} [BEq κ] (acc : List (κ × α)) (items : List (κ × α)) : List (κ × α) :=
  items.foldl (fun d p => dictInsert d p.1 p.2) acc

/-! ## Template store (src/main.py lines 42-57) -/

/-- The characters of the ".json" extension the template store appends. -/
def jsonExt : List Char := ['.', 'j', 's', 'o', 'n']

/-- File names are modelled as character lists so that the string surgery
of `list_templates` (Python `str.replace`) can be reasoned about. -/
abbrev FileName := List Char

/-- The templates directory: one file per file name. -/
abbrev Store := List (FileName × Template)

/-- `f"\x7bname\x7d.json"`, the file a template named `name` is kept in. -/
def mkFilename (name : FileName) : FileName := name ++ jsonExt

/-- Does `pat` occur as a contiguous segment of `s`?  (Used in hypotheses
about names that do or do not contain ".json".) -/
def hasSeg (pat : List Char) : List Char → Bool
  | [] => pat.isEmpty
  | c :: rest => pat.isPrefixOf (c :: rest) || hasSeg pat rest

/-- Python `s.replace(pat, rep)` for non-empty `pat`: scan left to right,
replacing non-overlapping occurrences; `skip` counts characters of a
just-matched occurrence still to be consumed. -/
def scanReplace (pat rep : List Char) : List Char → Nat → List Char
  | [], _ => []
  | _ :: rest, skip + 1 => scanReplace pat rep rest skip
  | c :: rest, 0 =>
    if !pat.isEmpty && pat.isPrefixOf (c :: rest) then
      rep ++ scanReplace pat rep rest (pat.length - 1)
    else
      c :: scanReplace pat rep rest 0

/-- Python `s.replace(pat, rep)` (with non-empty `pat`, as used by
`list_templates` with pat = ".json"). -/
def pyReplace (s pat rep : List Char) : List Char := scanReplace pat rep s 0

/-- `list_templates()`:
`[f.replace(".json", "") for f in os.listdir(TEMPLATE_DIR) if f.endswith(".json")]`.
Note `str.replace` removes every occurrence of ".json", not only the
trailing extension. -/
def list_templates (st : Store) : List FileName :=
  ((keysOf st).filter (fun f => jsonExt.isSuffixOf f)).map (fun f => pyReplace f jsonExt [])

/-- `save_template(name, data)`: writes or overwrites the file
`f"\x7bname\x7d.json"`.  The JSON serialisation is structural on these records,
so the stored value is the template itself. -/
def save_template (st : Store) (name : FileName) (data : Template) : Store :=
  dictInsert st (mkFilename name) data

/-- `load_template(name)`: opening a missing file raises (the spec's
`NotFoundError`), modelled as `none`. -/
def load_template (st : Store) (name : FileName) : Option Template :=
  dictGet (mkFilename name) st

/-- `delete_template(name)`: `os.remove` raises when the file is missing
(the spec's `NotFoundError`), modelled as `none`; otherwise the file is
removed. -/
def delete_template (st : Store) (name : FileName) : Option Store :=
  if (keysOf st).contains (mkFilename name) then
    some (st.filter (fun p => !(p.1 == mkFilename name)))
  else
    none

/-! ## Document extractor (src/main.py lines 20-39 and 134-141) -/

/-- Outcome of parsing an uploaded PDF: either a parsing error raised
anywhere inside the `try` block, or the per-page results of
`page.extract_text()` (`None` when a page has no text layer). -/
inductive PdfParse where
  | failure
  | pages (ps : List (Option String))

/-- `extract_text_from_pdf`: concatenate `page.extract_text() or ""` over
the pages in order, then `strip()`; a parsing error is caught by the bare
`except` and turned into `None` (modelled as `none`). -/
def extract_text_from_pdf : PdfParse → Option String
  | .failure => none
  | .pages ps => some ((ps.foldl (fun text p => text ++ p.getD "") "").trim)

/-- `ocr_pdf`: concatenate the OCR text of the page images in order, then
`strip()`. -/
def ocr_pdf (pages : List String) : String :=
  (pages.foldl (fun text t => text ++ t) "").trim

/-- The upload handler's PDF branch: direct extraction, then
`if not guideline_text:` falls back to OCR (both for a `None` result and
for an empty string). -/
def pdf_guideline_text (parse : PdfParse) (ocrPages : List String) : String :=
  match extract_text_from_pdf parse with
  | none => ocr_pdf ocrPages
  | some t => if t = "" then ocr_pdf ocrPages else t

/-! ## Suggestion engine (src/main.py lines 60-125) -/

/-- `random.choice(opts)` driven by one integer of the random stream:
`none` models the `IndexError` raised on an empty sequence; otherwise the
index `r % length` is chosen (every index is reachable as `r` varies). -/
def randomChoice (r : Nat) (opts : List String) : Option String :=
  opts[r % opts.length]?

/-- The fixed placeholder reason of the mock strategy. -/
def mockReason : String :=
  "This is a mock reason explaining why this option could be chosen."

/-- `f"Option: \x7bchoice\x7d\nReason: \x7breason\x7d"` as built by the mock strategy. -/
def mockAnswer (choice : String) : String :=
  "Option: " ++ choice ++ "\nReason: " ++ mockReason

/-- The `for q in task_template:` loop of `get_ai_suggestions_mock`;
`i` counts the `random.choice` calls consumed from the stream `pick`. -/
def mockLoop (pick : Nat → Nat) : Nat → List Question → List (String × String) → Option (List (String × String))
  | _, [], acc => some acc
  | i, q :: rest, acc =>
    match randomChoice (pick i) q.options with
    | none => none
    | some choice => mockLoop pick (i + 1) rest (dictInsert acc q.question (mockAnswer choice))

/-- `get_ai_suggestions_mock(task_template)`. -/
def get_ai_suggestions_mock (pick : Nat → Nat) (task_template : List Question) :
    Option (List (String × String)) :=
  mockLoop pick 0 task_template []

/-- Outcome of one `requests.post`: an HTTP response carrying the status,
`resp.text`, and (meaningful on status 200) the string found at
`resp.json()["choices"][0]["message"]["content"]`; or a raised
`requests.exceptions.RequestException`. -/
inductive HttpOutcome where
  | response (status : Nat) (body : String) (content : String)
  | requestError (msg : String)

/-- The `answer` computed for one question from its call's outcome
(src/main.py lines 99-106). -/
def answerOfOutcome : HttpOutcome → String
  | .response status body content =>
      if status = 200 then content.trim
      else "Error " ++ toString status ++ ": " ++ body
  | .requestError msg => "Request Exception: " ++ msg

/-- The prompt built for one question (src/main.py lines 74-92). -/
def buildPrompt (guideline_text user_text : String) (image_descriptions : List String)
    (q : Question) : String :=
  "\nYou are a grading assistant.\nGuideline:\n" ++ guideline_text ++
  "\n\nUser task description:\n" ++ user_text ++
  "\n\nImage descriptions:\n" ++
  (if image_descriptions.isEmpty then "No images"
   else String.intercalate ", " image_descriptions) ++
  "\n\nPlease select the most appropriate answer for the following question based on the guideline and task, and briefly explain your reasoning:\nQuestion: " ++
  q.question ++ "\nOptions: " ++ String.intercalate ", " q.options ++
  "\n\nPlease return in the following format:\nOption: <your chosen option>\nReason: <brief explanation>\n"

/-- Python truthiness of the credential (`if not DEEPSEEK_API_KEY:`):
an unset variable (`None`) and the empty string are both falsy. -/
def pythonTruthy : Option String → Bool
  | none => false
  | some s => !(s == "")

/-- Result of the remote strategy: whether the missing-credential error
was signalled (the `st.error` branch, the spec's `MissingCredentialError`),
the suggestions dict, and how many `requests.post` calls were made. -/
structure RemoteResult where
  missingCredential : Bool
  suggestions : List (String × String)
  networkCalls : Nat

/-- The `for q in task_template:` loop of `get_ai_suggestions_openrouter`:
call number `i` has outcome `net i prompt`; each iteration performs
exactly one network call. -/
def remoteLoop (net : Nat → String → HttpOutcome) (g u : String) (imgs : List String) :
    Nat → List Question → List (String × String) → Nat → List (String × String) × Nat
  | _, [], acc, calls => (acc, calls)
  | i, q :: rest, acc, calls =>
    remoteLoop net g u imgs (i + 1) rest
      (dictInsert acc q.question (answerOfOutcome (net i (buildPrompt g u imgs q))))
      (calls + 1)

/-- `get_ai_suggestions_openrouter(task_template, guideline_text,
user_text, image_descriptions)`; the credential parameter stands for the
process-wide `DEEPSEEK_API_KEY`. -/
def get_ai_suggestions_openrouter (apiKey : Option String) (net : Nat → String → HttpOutcome)
    (task_template : List Question) (guideline_text user_text : String)
    (image_descriptions : List String) : RemoteResult :=
  if pythonTruthy apiKey then
    let r := remoteLoop net guideline_text user_text image_descriptions 0 task_template [] 0
    ⟨false, r.1, r.2⟩
  else
    ⟨true, [], 0⟩

/-! ## Per-question answer lists (template order, before dict collapsing) -/

/-- The key/answer pairs the mock loop inserts, in template order, for a
template whose questions all have options. -/
def mockItems (pick : Nat → Nat) : Nat → List Question → List (String × String)
  | _, [] => []
  | i, q :: rest =>
    (q.question, mockAnswer (q.options.getD (pick i % q.options.length) "")) ::
      mockItems pick (i + 1) rest

/-- The key/answer pairs the remote loop inserts, in template order. -/
def remoteItems (net : Nat → String → HttpOutcome) (g u : String) (imgs : List String) :
    Nat → List Question → List (String × String)
  | _, [] => []
  | i, q :: rest =>
    (q.question, answerOfOutcome (net i (buildPrompt g u imgs q))) ::
      remoteItems net g u imgs (i + 1) rest

/-- A store whose templates were each saved under a given name: one file
per (name, template) pair. -/
def mkStore (l : List (FileName × Template)) : Store :=
  l.map (fun p => (mkFilename p.1, p.2))

/-! ## Association-list lemmas (Python dict semantics) -/

section DictLemmas

variable {κ α : Type} [BEq κ] [LawfulBEq κ]

theorem any_key_iff (d : List (κ × α)) (k : κ) :
    d.any (fun p => p.1 == k) = true ↔ k ∈ keysOf d := by
  simp [keysOf, List.any_eq_true, List.mem_map]

theorem dictGet_update (d : List (κ × α)) (k : κ) (v : α) :
    dictGet k (d.map (fun p => if p.1 == k then (k, v) else p)) =
      (dictGet k d).map (fun _ => v) := by
  induction d with
  | nil => rfl
  | cons p rest ih =>
    by_cases hp : p.1 = k
    · simp [dictGet, hp]
    · simp [dictGet, hp, ih]

theorem dictGet_isSome_of_mem {d : List (κ × α)} {k : κ} (h : k ∈ keysOf d) :
    (dictGet k d).isSome := by
  induction d with
  | nil => simp [keysOf] at h
  | cons p rest ih =>
    by_cases hp : p.1 = k
    · simp [dictGet, hp]
    · simp only [keysOf, List.map_cons, List.mem_cons] at h
      rcases h with h | h
      · exact absurd h.symm hp
      · simpa [dictGet, hp] using ih h

theorem dictGet_eq_none_of_not_mem {d : List (κ × α)} {k : κ} (h : k ∉ keysOf d) :
    dictGet k d = none := by
  induction d with
  | nil => rfl
  | cons p rest ih =>
    simp only [keysOf, List.map_cons, List.mem_cons, not_or] at h
    have ht : rest.map Prod.fst = keysOf rest := rfl
    rw [ht] at h
    have hne : ¬ p.1 = k := fun he => h.1 he.symm
    simp [dictGet, hne, ih h.2]

theorem dictGet_append (d₁ d₂ : List (κ × α)) (k : κ) :
    dictGet k (d₁ ++ d₂) =
      match dictGet k d₁ with
      | some v => some v
      | none => dictGet k d₂ := by
  induction d₁ with
  | nil => rfl
  | cons p rest ih =>
    by_cases hp : p.1 = k
    · simp [dictGet, hp]
    · simpa [dictGet, hp] using ih

theorem dictGet_dictInsert_self (d : List (κ × α)) (k : κ) (v : α) :
    dictGet k (dictInsert d k v) = some v := by
  unfold dictInsert
  by_cases h : d.any (fun p => p.1 == k) = true
  · rw [if_pos h, dictGet_update]
    have := dictGet_isSome_of_mem ((any_key_iff d k).mp h)
    rcases Option.isSome_iff_exists.mp this with ⟨w, hw⟩
    simp [hw]
  · rw [if_neg h, dictGet_append]
    have hk : k ∉ keysOf d := fun hm => h ((any_key_iff d k).mpr hm)
    simp [dictGet_eq_none_of_not_mem hk, dictGet]

theorem dictGet_update_ne (d : List (κ × α)) {k k' : κ} (v : α) (h : k' ≠ k) :
    dictGet k' (d.map (fun p => if p.1 == k then (k, v) else p)) = dictGet k' d := by
  induction d with
  | nil => rfl
  | cons p rest ih =>
    by_cases hp : p.1 = k
    · have h2 : ¬ (k = k') := fun he => h he.symm
      have h3 : ¬ (p.1 = k') := by rw [hp]; exact h2
      simp [dictGet, hp, h2, h3, ih]
    · have hb : (p.1 == k) = false := beq_eq_false_iff_ne.mpr hp
      simp only [List.map_cons, hb, Bool.false_eq_true, if_false, dictGet]
      rw [ih]

theorem dictGet_dictInsert_ne (d : List (κ × α)) {k k' : κ} (v : α) (h : k' ≠ k) :
    dictGet k' (dictInsert d k v) = dictGet k' d := by
  unfold dictInsert
  by_cases hany : d.any (fun p => p.1 == k) = true
  · rw [if_pos hany]
    exact dictGet_update_ne d v h
  · rw [if_neg hany, dictGet_append]
    cases hg : dictGet k' d with
    | some v' => simp
    | none =>
      have h2 : ¬ (k = k') := fun he => h he.symm
      simp [dictGet, h2]

theorem dictInsert_of_not_mem {d : List (κ × α)} {k : κ} (v : α) (h : k ∉ keysOf d) :
    dictInsert d k v = d ++ [(k, v)] := by
  unfold dictInsert
  rw [if_neg (fun hany => h ((any_key_iff d k).mp hany))]

theorem keysOf_append (d₁ d₂ : List (κ × α)) :
    keysOf (d₁ ++ d₂) = keysOf d₁ ++ keysOf d₂ := by
  simp [keysOf]

theorem keysOf_dictInsert_of_mem {d : List (κ × α)} {k : κ} (v : α) (h : k ∈ keysOf d) :
    keysOf (dictInsert d k v) = keysOf d := by
  unfold dictInsert
  rw [if_pos ((any_key_iff d k).mpr h)]
  simp only [keysOf, List.map_map]
  apply List.map_congr_left
  intro p _
  by_cases hp : p.1 == k
  · simp [Function.comp, hp, beq_iff_eq.mp hp]
  · simp [Function.comp, hp]

theorem keysOf_dictInsert_of_not_mem {d : List (κ × α)} {k : κ} (v : α) (h : k ∉ keysOf d) :
    keysOf (dictInsert d k v) = keysOf d ++ [k] := by
  rw [dictInsert_of_not_mem v h, keysOf_append]
  rfl

theorem mem_keysOf_dictInsert {d : List (κ × α)} {k x : κ} (v : α) :
    x ∈ keysOf (dictInsert d k v) ↔ x ∈ keysOf d ∨ x = k := by
  by_cases h : k ∈ keysOf d
  · rw [keysOf_dictInsert_of_mem v h]
    constructor
    · exact Or.inl
    · rintro (hx | rfl) <;> [exact hx; exact h]
  · rw [keysOf_dictInsert_of_not_mem v h]
    simp

theorem nodup_keysOf_dictInsert {d : List (κ × α)} {k : κ} (v : α)
    (h : (keysOf d).Nodup) : (keysOf (dictInsert d k v)).Nodup := by
  by_cases hm : k ∈ keysOf d
  · rwa [keysOf_dictInsert_of_mem v hm]
  · rw [keysOf_dictInsert_of_not_mem v hm]
    simpa [List.nodup_append] using ⟨h, hm⟩

theorem mem_dictInsert_val {d : List (κ × α)} {k : κ} {v : α} {P : α → Prop}
    (hd : ∀ kv ∈ d, P kv.2) (hv : P v) : ∀ kv ∈ dictInsert d k v, P kv.2 := by
  intro kv hkv
  unfold dictInsert at hkv
  by_cases hany : d.any (fun p => p.1 == k) = true
  · rw [if_pos hany] at hkv
    rcases List.mem_map.mp hkv with ⟨p, hp, he⟩
    by_cases hc : p.1 = k
    · rw [← he]
      simp only [hc, beq_self_eq_true, if_true]
      exact hv
    · rw [← he]
      have hb : (p.1 == k) = false := beq_eq_false_iff_ne.mpr hc
      simp only [hb, Bool.false_eq_true, if_false]
      exact hd p hp
  · rw [if_neg hany] at hkv
    rcases List.mem_append.mp hkv with hm | hm
    · exact hd kv hm
    · rcases List.mem_singleton.mp hm with rfl
      exact hv

theorem dictFold_cons (acc : List (κ × α)) (p : κ × α) (items : List (κ × α)) :
    dictFold acc (p :: items) = dictFold (dictInsert acc p.1 p.2) items := rfl

theorem dictFold_append (acc l₁ l₂ : List (κ × α)) :
    dictFold acc (l₁ ++ l₂) = dictFold (dictFold acc l₁) l₂ := by
  simp [dictFold, List.foldl_append]

theorem mem_keysOf_dictFold (acc items : List (κ × α)) (x : κ) :
    x ∈ keysOf (dictFold acc items) ↔ x ∈ keysOf acc ∨ x ∈ keysOf items := by
  induction items generalizing acc with
  | nil => simp [dictFold, keysOf]
  | cons p rest ih =>
    rw [dictFold_cons, ih, mem_keysOf_dictInsert]
    simp only [keysOf, List.map_cons, List.mem_cons]
    tauto

theorem nodup_keysOf_dictFold (acc items : List (κ × α)) (h : (keysOf acc).Nodup) :
    (keysOf (dictFold acc items)).Nodup := by
  induction items generalizing acc with
  | nil => simpa [dictFold]
  | cons p rest ih =>
    rw [dictFold_cons]
    exact ih _ (nodup_keysOf_dictInsert _ h)

theorem dictGet_dictFold_of_not_mem (acc : List (κ × α)) {items : List (κ × α)} {t : κ}
    (h : t ∉ keysOf items) : dictGet t (dictFold acc items) = dictGet t acc := by
  induction items generalizing acc with
  | nil => rfl
  | cons p rest ih =>
    rw [show keysOf (p :: rest) = p.1 :: keysOf rest from rfl, List.mem_cons, not_or] at h
    rw [dictFold_cons, ih _ h.2]
    exact dictGet_dictInsert_ne acc _ h.1

theorem dictGet_dictFold_last (acc l₁ l₂ : List (κ × α)) (t : κ) (v : α)
    (h : t ∉ keysOf l₂) :
    dictGet t (dictFold acc (l₁ ++ (t, v) :: l₂)) = some v := by
  rw [dictFold_append, dictFold_cons, dictGet_dictFold_of_not_mem _ h]
  exact dictGet_dictInsert_self _ _ _

theorem dictFold_of_nodup (acc : List (κ × α)) {items : List (κ × α)}
    (hn : (keysOf items).Nodup) (hd : ∀ x ∈ keysOf items, x ∉ keysOf acc) :
    dictFold acc items = acc ++ items := by
  induction items generalizing acc with
  | nil => simp [dictFold]
  | cons p rest ih =>
    have hk : keysOf (p :: rest) = p.1 :: keysOf rest := rfl
    rw [hk, List.nodup_cons] at hn
    rw [hk] at hd
    rw [dictFold_cons, dictInsert_of_not_mem _ (hd p.1 (List.mem_cons_self _ _))]
    have hd' : ∀ x ∈ keysOf rest, x ∉ keysOf (acc ++ [(p.1, p.2)]) := by
      intro x hx
      rw [keysOf_append, List.mem_append]
      rintro (hxa | hxp)
      · exact hd x (List.mem_cons_of_mem _ hx) hxa
      · have hx1 : x = p.1 := by simpa [keysOf] using hxp
        exact hn.1 (hx1 ▸ hx)
    rw [ih _ hn.2 hd']
    simp

end DictLemmas

/-! ## Lemmas on byte-level name surgery (Python str.replace / endswith) -/

theorem isPrefixOf_append_self (l t : List Char) : l.isPrefixOf (l ++ t) = true := by
  induction l with
  | nil => simp [List.isPrefixOf]
  | cons c rest ih => simpa [List.isPrefixOf] using ih

theorem exists_of_isPrefixOf {l s : List Char} (h : l.isPrefixOf s = true) :
    ∃ t, s = l ++ t := by
  induction l generalizing s with
  | nil => exact ⟨s, rfl⟩
  | cons c rest ih =>
    cases s with
    | nil => simp [List.isPrefixOf] at h
    | cons c' s' =>
      simp only [List.isPrefixOf, Bool.and_eq_true, beq_iff_eq] at h
      rcases ih h.2 with ⟨t, rfl⟩
      exact ⟨t, by rw [h.1]; rfl⟩

theorem isPrefixOf_of_take {l s : List Char} (h : s.take l.length = l) :
    l.isPrefixOf s = true := by
  induction l generalizing s with
  | nil => simp [List.isPrefixOf]
  | cons c rest ih =>
    cases s with
    | nil => simp at h
    | cons c' s' =>
      simp only [List.length_cons, List.take_succ_cons, List.cons.injEq] at h
      simp only [List.isPrefixOf, Bool.and_eq_true, beq_iff_eq]
      exact ⟨h.1.symm, ih h.2⟩

theorem jsonExt_no_overlap (n : List Char) (hne : n ≠ []) (hlen : n.length < 5)
    (hpre : jsonExt.isPrefixOf (n ++ jsonExt) = true) : False := by
  match n, hne with
  | [a], _ =>
    simp only [jsonExt, List.cons_append, List.nil_append, List.isPrefixOf,
      Bool.and_eq_true, beq_iff_eq] at hpre
    exact absurd hpre.2.1 (by decide)
  | [a, b], _ =>
    simp only [jsonExt, List.cons_append, List.nil_append, List.isPrefixOf,
      Bool.and_eq_true, beq_iff_eq] at hpre
    exact absurd hpre.2.2.1 (by decide)
  | [a, b, c], _ =>
    simp only [jsonExt, List.cons_append, List.nil_append, List.isPrefixOf,
      Bool.and_eq_true, beq_iff_eq] at hpre
    exact absurd hpre.2.2.2.1 (by decide)
  | [a, b, c, d], _ =>
    simp only [jsonExt, List.cons_append, List.nil_append, List.isPrefixOf,
      Bool.and_eq_true, beq_iff_eq] at hpre
    exact absurd hpre.2.2.2.2.1 (by decide)
  | a :: b :: c :: d :: e :: rest, _ => simp at hlen; omega

theorem scanReplace_clean : ∀ (n : List Char), hasSeg jsonExt n = false →
    scanReplace jsonExt [] (n ++ jsonExt) 0 = n := by
  intro n
  induction n with
  | nil => intro _; decide
  | cons c n' ih =>
    intro hseg
    simp only [hasSeg, Bool.or_eq_false_iff] at hseg
    have hpre : jsonExt.isPrefixOf ((c :: n') ++ jsonExt) = false := by
      by_contra hc
      have hp : jsonExt.isPrefixOf ((c :: n') ++ jsonExt) = true := by
        revert hc; cases jsonExt.isPrefixOf ((c :: n') ++ jsonExt) <;> simp
      by_cases hl : (c :: n').length < 5
      · exact jsonExt_no_overlap (c :: n') (by simp) hl hp
      · rcases exists_of_isPrefixOf hp with ⟨t, ht⟩
        have h5 : jsonExt.length ≤ (c :: n').length := by
          simpa [jsonExt] using Nat.le_of_not_lt hl
        have htake : (c :: n').take jsonExt.length = jsonExt := by
          have h1 : ((c :: n') ++ jsonExt).take jsonExt.length
              = (c :: n').take jsonExt.length := List.take_append_of_le_length h5
          have h2 : (jsonExt ++ t).take jsonExt.length = jsonExt := by
            simpa using List.take_left jsonExt t
          rw [← h1, ht, h2]
        have : jsonExt.isPrefixOf (c :: n') = true := isPrefixOf_of_take htake
        rw [this] at hseg
        exact absurd hseg.1 (by simp)
    have hpre' : jsonExt.isPrefixOf (c :: (n' ++ jsonExt)) = false := by
      simpa [List.cons_append] using hpre
    show scanReplace jsonExt [] (c :: (n' ++ jsonExt)) 0 = c :: n'
    rw [scanReplace, hpre']
    simp only [Bool.and_false, Bool.false_eq_true, if_false]
    rw [ih hseg.2]

theorem isSuffixOf_append_self (m : List Char) : jsonExt.isSuffixOf (m ++ jsonExt) = true := by
  unfold List.isSuffixOf
  rw [List.reverse_append]
  exact isPrefixOf_append_self _ _

theorem mkFilename_inj {a b : FileName} (h : mkFilename a = mkFilename b) : a = b := by
  have hlen : a.length = b.length := by
    have := congrArg List.length h
    simp only [mkFilename, List.length_append] at this
    omega
  have ha : (mkFilename a).take a.length = a := List.take_left a jsonExt
  have hb : (mkFilename b).take b.length = b := List.take_left b jsonExt
  rw [← ha, ← hb, h, hlen]

theorem keysOf_mkStore (l : List (FileName × Template)) :
    keysOf (mkStore l) = (l.map Prod.fst).map mkFilename := by
  simp [mkStore, keysOf, List.map_map, Function.comp]

/-! ## Lemmas on the suggestion strategies -/

theorem randomChoice_eq {opts : List String} (r : Nat) (h : opts ≠ []) :
    randomChoice r opts = some (opts.getD (r % opts.length) "") := by
  have hm : r % opts.length < opts.length := Nat.mod_lt _ (List.length_pos.mpr h)
  rw [randomChoice, List.getElem?_eq_getElem hm, List.getD_eq_getElem opts "" hm]

theorem getD_mem {opts : List String} {i : Nat} (h : i < opts.length) :
    opts.getD i "" ∈ opts := by
  rw [List.getD_eq_getElem opts "" h]
  exact List.getElem_mem h

theorem mockLoop_none (pick : Nat → Nat) {tt : List Question} {q : Question}
    (hq : q ∈ tt) (hopts : q.options = []) :
    ∀ i acc, mockLoop pick i tt acc = none := by
  induction tt with
  | nil => cases hq
  | cons p rest ih =>
    intro i acc
    rcases List.mem_cons.mp hq with rfl | hmem
    · simp [mockLoop, randomChoice, hopts]
    · cases hrc : randomChoice (pick i) p.options with
      | none => simp [mockLoop, hrc]
      | some c =>
        simp only [mockLoop, hrc]
        exact ih hmem _ _

theorem mockLoop_eq_dictFold (pick : Nat → Nat) {tt : List Question}
    (h : ∀ q ∈ tt, q.options ≠ []) :
    ∀ i acc, mockLoop pick i tt acc = some (dictFold acc (mockItems pick i tt)) := by
  induction tt with
  | nil => intro i acc; rfl
  | cons p rest ih =>
    intro i acc
    have hp : p.options ≠ [] := h p (List.mem_cons_self _ _)
    simp only [mockLoop, randomChoice_eq _ hp]
    rw [ih (fun q hq => h q (List.mem_cons_of_mem _ hq))]
    rfl

theorem remoteLoop_eq (net : Nat → String → HttpOutcome) (g u : String) (imgs : List String) :
    ∀ (tt : List Question) (i : Nat) (acc : List (String × String)) (calls : Nat),
      remoteLoop net g u imgs i tt acc calls =
        (dictFold acc (remoteItems net g u imgs i tt), calls + tt.length) := by
  intro tt
  induction tt with
  | nil => intro i acc calls; rfl
  | cons p rest ih =>
    intro i acc calls
    rw [remoteLoop, ih]
    simp only [remoteItems, dictFold_cons, List.length_cons, Prod.mk.injEq, true_and]
    omega

theorem keysOf_mockItems (pick : Nat → Nat) (tt : List Question) : ∀ i : Nat,
    keysOf (mockItems pick i tt) = tt.map Question.question := by
  induction tt with
  | nil => intro i; rfl
  | cons p rest ih =>
    intro i
    simp only [mockItems, keysOf, List.map_cons, List.map, List.cons.injEq, true_and]
    exact ih (i + 1)

theorem keysOf_remoteItems (net : Nat → String → HttpOutcome) (g u : String)
    (imgs : List String) (tt : List Question) : ∀ i : Nat,
    keysOf (remoteItems net g u imgs i tt) = tt.map Question.question := by
  induction tt with
  | nil => intro i; rfl
  | cons p rest ih =>
    intro i
    simp only [remoteItems, keysOf, List.map_cons, List.map, List.cons.injEq, true_and]
    exact ih (i + 1)

theorem mockItems_append (pick : Nat → Nat) (l₁ l₂ : List Question) : ∀ i : Nat,
    mockItems pick i (l₁ ++ l₂)
      = mockItems pick i l₁ ++ mockItems pick (i + l₁.length) l₂ := by
  induction l₁ with
  | nil => intro i; simp [mockItems]
  | cons p rest ih =>
    intro i
    simp only [List.cons_append, mockItems, List.length_cons, List.append_eq]
    rw [ih (i + 1), show i + 1 + rest.length = i + (rest.length + 1) from by omega]

theorem remoteItems_append (net : Nat → String → HttpOutcome) (g u : String)
    (imgs : List String) (l₁ l₂ : List Question) : ∀ i : Nat,
    remoteItems net g u imgs i (l₁ ++ l₂)
      = remoteItems net g u imgs i l₁ ++ remoteItems net g u imgs (i + l₁.length) l₂ := by
  induction l₁ with
  | nil => intro i; simp [remoteItems]
  | cons p rest ih =>
    intro i
    simp only [List.cons_append, remoteItems, List.length_cons, List.append_eq]
    rw [ih (i + 1), show i + 1 + rest.length = i + (rest.length + 1) from by omega]

theorem nodup_sub_length {d l : List String} (hnd : d.Nodup) (hsub : ∀ x ∈ d, x ∈ l)
    (hl : ¬ l.Nodup) : d.length < l.length := by
  have h1 : d.toFinset.card = d.length := List.toFinset_card_of_nodup hnd
  have h2 : d.toFinset ⊆ l.toFinset := fun x hx =>
    List.mem_toFinset.mpr (hsub x (List.mem_toFinset.mp hx))
  have h4 : l.dedup.length ≤ l.length := (List.dedup_sublist l).length_le
  have h5 : l.dedup.length ≠ l.length := fun he =>
    hl (((List.dedup_sublist l).eq_of_length he) ▸ List.nodup_dedup l)
  calc d.length = d.toFinset.card := h1.symm
    _ ≤ l.toFinset.card := Finset.card_le_card h2
    _ = l.dedup.length := List.card_toFinset l
    _ < l.length := lt_of_le_of_ne h4 h5

theorem not_nodup_of_split {A B : List String} {t : String} (h : t ∈ A) :
    ¬ (A ++ t :: B).Nodup := by
  intro hnd
  rcases List.nodup_append.mp hnd with ⟨_, _, hdisj⟩
  exact hdisj h (List.mem_cons_self _ _)

theorem mockLoop_values (pick : Nat → Nat) :
    ∀ (tt : List Question) (i : Nat) (acc s : List (String × String)),
      (∀ kv ∈ acc, ∃ c, kv.2 = mockAnswer c) →
      mockLoop pick i tt acc = some s →
      ∀ kv ∈ s, ∃ c, kv.2 = mockAnswer c := by
  intro tt
  induction tt with
  | nil =>
    intro i acc s hacc hs kv hkv
    rw [mockLoop] at hs
    cases hs
    exact hacc kv hkv
  | cons p rest ih =>
    intro i acc s hacc hs kv hkv
    rw [mockLoop] at hs
    cases hrc : randomChoice (pick i) p.options with
    | none => rw [hrc] at hs; cases hs
    | some c =>
      rw [hrc] at hs
      have hv : ∃ c2, mockAnswer c = mockAnswer c2 := ⟨c, rfl⟩
      exact ih (i + 1) _ s
        (@mem_dictInsert_val String String _ _ acc p.question (mockAnswer c)
          (fun a => ∃ c2, a = mockAnswer c2) hacc hv) hs kv hkv

theorem pythonTruthy_of_ne {key : String} (hk : key ≠ "") :
    pythonTruthy (some key) = true := by
  simp [pythonTruthy, hk]

theorem openrouter_eq (key : String) (net : Nat → String → HttpOutcome)
    (tt : List Question) (g u : String) (imgs : List String) (hk : key ≠ "") :
    get_ai_suggestions_openrouter (some key) net tt g u imgs
      = ⟨false, dictFold [] (remoteItems net g u imgs 0 tt), 0 + tt.length⟩ := by
  rw [get_ai_suggestions_openrouter, pythonTruthy_of_ne hk]
  simp only [if_true, remoteLoop_eq]

/-! ## The specified properties -/

/-- C1 (amended: the template's question texts must also be pairwise
distinct, since the suggestions dict collapses duplicate keys): for every
template in which every question has at least one option and the texts
are distinct, the mock strategy succeeds with exactly one entry per
question, the entries in template order, and each entry's chosen option a
member of that question's option list. -/
theorem C1_mock_totality (pick : Nat → Nat) (tt : List Question)
    (hopts : ∀ q ∈ tt, q.options ≠ [])
    (hnd : (tt.map Question.question).Nodup) :
    ∃ s, get_ai_suggestions_mock pick tt = some s ∧
      keysOf s = tt.map Question.question ∧
      s.length = tt.length ∧
      ∀ q ∈ tt, ∃ c ∈ q.options, dictGet q.question s = some (mockAnswer c) := by
  have hs := mockLoop_eq_dictFold pick hopts 0 []
  have hkeys : keysOf (mockItems pick 0 tt) = tt.map Question.question :=
    keysOf_mockItems pick tt 0
  have hnditems : (keysOf (mockItems pick 0 tt)).Nodup := by rw [hkeys]; exact hnd
  have hflat : dictFold [] (mockItems pick 0 tt) = mockItems pick 0 tt := by
    rw [dictFold_of_nodup [] hnditems (by intro x _ hx; simp [keysOf] at hx)]
    simp
  refine ⟨dictFold [] (mockItems pick 0 tt), hs, ?_, ?_, ?_⟩
  · rw [hflat, hkeys]
  · rw [hflat]
    have h1 := congrArg List.length hkeys
    rw [keysOf, List.length_map, List.length_map] at h1
    exact h1
  · intro q hq
    rcases List.append_of_mem hq with ⟨l₁, l₂, rfl⟩
    have hqm : q ∈ l₁ ++ q :: l₂ := List.mem_append_right _ (List.mem_cons_self _ _)
    have hlen : 0 < q.options.length := List.length_pos.mpr (hopts q hqm)
    refine ⟨q.options.getD (pick (0 + l₁.length) % q.options.length) "",
      getD_mem (Nat.mod_lt _ hlen), ?_⟩
    have hitems : mockItems pick 0 (l₁ ++ q :: l₂)
        = mockItems pick 0 l₁ ++
          (q.question, mockAnswer (q.options.getD (pick (0 + l₁.length) % q.options.length) ""))
            :: mockItems pick (0 + l₁.length + 1) l₂ := by
      rw [mockItems_append pick l₁ (q :: l₂) 0]
      rfl
    rw [hitems]
    apply dictGet_dictFold_last
    rw [keysOf_mockItems]
    have hnd2 : ((q :: l₂).map Question.question).Nodup := by
      rw [List.map_append] at hnd
      exact hnd.of_append_right
    rw [List.map_cons, List.nodup_cons] at hnd2
    exact hnd2.1

/-- C1 as frozen is refuted by a template with two questions of the same
text (each with one option): the suggestions dict has a single entry, not
one per question. -/
theorem C1_counterexample :
    get_ai_suggestions_mock (fun _ => 0) [Question.mk "q" ["a"], Question.mk "q" ["b"]]
      = some [("q", mockAnswer "b")] ∧
    ¬ [Question.mk "q" ["a"], Question.mk "q" ["b"]].length = 1 ∧
    ([Question.mk "q" ["a"], Question.mk "q" ["b"]].all (fun q => !q.options.isEmpty)) = true := by
  decide

theorem C1_witness :
    ∃ s, get_ai_suggestions_mock (fun _ => 1) [Question.mk "q1" ["a", "b"], Question.mk "q2" ["c"]]
        = some s ∧
      keysOf s = [Question.mk "q1" ["a", "b"], Question.mk "q2" ["c"]].map Question.question ∧
      s.length = [Question.mk "q1" ["a", "b"], Question.mk "q2" ["c"]].length ∧
      ∀ q ∈ [Question.mk "q1" ["a", "b"], Question.mk "q2" ["c"]],
        ∃ c ∈ q.options, dictGet q.question s = some (mockAnswer c) :=
  C1_mock_totality (fun _ => 1) [Question.mk "q1" ["a", "b"], Question.mk "q2" ["c"]]
    (by decide) (by decide)

/-- C2: with no credential configured, the remote strategy signals the
missing-credential error, performs zero network calls and yields no
suggestions. -/
theorem C2_missing_credential (net : Nat → String → HttpOutcome) (tt : List Question)
    (g u : String) (imgs : List String) :
    get_ai_suggestions_openrouter none net tt g u imgs = ⟨true, [], 0⟩ := rfl

/-- C3: saving a template under a name and loading that name yields the
same template, for any prior store contents. -/
theorem C3_round_trip (st : Store) (name : FileName) (data : Template) :
    load_template (save_template st name data) name = some data :=
  dictGet_dictInsert_self st (mkFilename name) data

/-- C4 (amended: the question texts must be pairwise distinct, since the
suggestions dict collapses duplicate keys): with a credential configured,
the remote strategy returns one entry per question; each question's
answer is determined by its own call's outcome alone — in particular a
non-200 response becomes the literal string embedding status and body,
and a request exception becomes the literal exception string, with no
exception raised and all other entries unaffected. -/
theorem C4_remote_isolation (key : String) (net : Nat → String → HttpOutcome)
    (tt : List Question) (g u : String) (imgs : List String)
    (hk : key ≠ "") (hnd : (tt.map Question.question).Nodup) :
    (get_ai_suggestions_openrouter (some key) net tt g u imgs).suggestions.length = tt.length ∧
    keysOf (get_ai_suggestions_openrouter (some key) net tt g u imgs).suggestions
      = tt.map Question.question ∧
    ∀ l₁ q l₂, tt = l₁ ++ q :: l₂ →
      dictGet q.question (get_ai_suggestions_openrouter (some key) net tt g u imgs).suggestions
        = some (answerOfOutcome (net l₁.length (buildPrompt g u imgs q))) ∧
      (∀ sc b c, net l₁.length (buildPrompt g u imgs q) = HttpOutcome.response sc b c →
        ¬ sc = 200 →
        dictGet q.question (get_ai_suggestions_openrouter (some key) net tt g u imgs).suggestions
          = some ("Error " ++ toString sc ++ ": " ++ b)) ∧
      ∀ m, net l₁.length (buildPrompt g u imgs q) = HttpOutcome.requestError m →
        dictGet q.question (get_ai_suggestions_openrouter (some key) net tt g u imgs).suggestions
          = some ("Request Exception: " ++ m) := by
  rw [openrouter_eq key net tt g u imgs hk]
  have hkeys : keysOf (remoteItems net g u imgs 0 tt) = tt.map Question.question :=
    keysOf_remoteItems net g u imgs tt 0
  have hnditems : (keysOf (remoteItems net g u imgs 0 tt)).Nodup := by rw [hkeys]; exact hnd
  have hflat : dictFold [] (remoteItems net g u imgs 0 tt) = remoteItems net g u imgs 0 tt := by
    rw [dictFold_of_nodup [] hnditems (by intro x _ hx; simp [keysOf] at hx)]
    simp
  refine ⟨?_, ?_, ?_⟩
  · show (dictFold [] (remoteItems net g u imgs 0 tt)).length = tt.length
    rw [hflat]
    have h1 := congrArg List.length hkeys
    rw [keysOf, List.length_map, List.length_map] at h1
    exact h1
  · show keysOf (dictFold [] (remoteItems net g u imgs 0 tt)) = tt.map Question.question
    rw [hflat, hkeys]
  · intro l₁ q l₂ hsplit
    subst hsplit
    have hmain : dictGet q.question (dictFold [] (remoteItems net g u imgs 0 (l₁ ++ q :: l₂)))
        = some (answerOfOutcome (net (0 + l₁.length) (buildPrompt g u imgs q))) := by
      have hitems : remoteItems net g u imgs 0 (l₁ ++ q :: l₂)
          = remoteItems net g u imgs 0 l₁ ++
            (q.question, answerOfOutcome (net (0 + l₁.length) (buildPrompt g u imgs q)))
              :: remoteItems net g u imgs (0 + l₁.length + 1) l₂ := by
        rw [remoteItems_append net g u imgs l₁ (q :: l₂) 0]
        rfl
      rw [hitems]
      apply dictGet_dictFold_last
      rw [keysOf_remoteItems]
      have hnd2 : ((q :: l₂).map Question.question).Nodup := by
        rw [List.map_append] at hnd
        exact hnd.of_append_right
      rw [List.map_cons, List.nodup_cons] at hnd2
      exact hnd2.1
    rw [Nat.zero_add] at hmain
    refine ⟨hmain, ?_, ?_⟩
    · intro sc b c hresp h200
      rw [hmain, hresp]
      simp [answerOfOutcome, h200]
    · intro m hexc
      rw [hmain, hexc]
      rfl

/-- C4 as frozen is refuted by two questions with the same text: call 0
fails with a non-200 status, yet the resulting dict has a single entry
(the last occurrence's answer), not one entry per question. -/
theorem C4_counterexample :
    (get_ai_suggestions_openrouter (some "k")
        (fun i _ => if i = 0 then HttpOutcome.response 500 "boom" ""
                    else HttpOutcome.response 404 "nope" "")
        [Question.mk "q" ["a"], Question.mk "q" ["b"]] "g" "u" []).suggestions
      = [("q", "Error 404: nope")] ∧
    ¬ [("q", "Error 404: nope")].length = [Question.mk "q" ["a"], Question.mk "q" ["b"]].length := by
  constructor
  · decide
  · decide

theorem C4_witness :
    (get_ai_suggestions_openrouter (some "k")
        (fun i _ => if i = 0 then HttpOutcome.response 500 "boom" ""
                    else HttpOutcome.response 200 "" "fine")
        [Question.mk "q1" ["a"], Question.mk "q2" ["b"]] "g" "u" []).suggestions.length
      = [Question.mk "q1" ["a"], Question.mk "q2" ["b"]].length ∧
    keysOf (get_ai_suggestions_openrouter (some "k")
        (fun i _ => if i = 0 then HttpOutcome.response 500 "boom" ""
                    else HttpOutcome.response 200 "" "fine")
        [Question.mk "q1" ["a"], Question.mk "q2" ["b"]] "g" "u" []).suggestions
      = [Question.mk "q1" ["a"], Question.mk "q2" ["b"]].map Question.question ∧
    ∀ l₁ q l₂, [Question.mk "q1" ["a"], Question.mk "q2" ["b"]] = l₁ ++ q :: l₂ →
      dictGet q.question (get_ai_suggestions_openrouter (some "k")
          (fun i _ => if i = 0 then HttpOutcome.response 500 "boom" ""
                      else HttpOutcome.response 200 "" "fine")
          [Question.mk "q1" ["a"], Question.mk "q2" ["b"]] "g" "u" []).suggestions
        = some (answerOfOutcome ((fun i _ => if i = 0 then HttpOutcome.response 500 "boom" ""
                      else HttpOutcome.response 200 "" "fine") l₁.length (buildPrompt "g" "u" [] q))) ∧
      (∀ sc b c, (fun i _ => if i = 0 then HttpOutcome.response 500 "boom" ""
                      else HttpOutcome.response 200 "" "fine") l₁.length (buildPrompt "g" "u" [] q)
            = HttpOutcome.response sc b c →
        ¬ sc = 200 →
        dictGet q.question (get_ai_suggestions_openrouter (some "k")
            (fun i _ => if i = 0 then HttpOutcome.response 500 "boom" ""
                        else HttpOutcome.response 200 "" "fine")
            [Question.mk "q1" ["a"], Question.mk "q2" ["b"]] "g" "u" []).suggestions
          = some ("Error " ++ toString sc ++ ": " ++ b)) ∧
      ∀ m, (fun i _ => if i = 0 then HttpOutcome.response 500 "boom" ""
                      else HttpOutcome.response 200 "" "fine") l₁.length (buildPrompt "g" "u" [] q)
            = HttpOutcome.requestError m →
        dictGet q.question (get_ai_suggestions_openrouter (some "k")
            (fun i _ => if i = 0 then HttpOutcome.response 500 "boom" ""
                        else HttpOutcome.response 200 "" "fine")
            [Question.mk "q1" ["a"], Question.mk "q2" ["b"]] "g" "u" []).suggestions
          = some ("Request Exception: " ++ m) :=
  C4_remote_isolation "k"
    (fun i _ => if i = 0 then HttpOutcome.response 500 "boom" ""
                else HttpOutcome.response 200 "" "fine")
    [Question.mk "q1" ["a"], Question.mk "q2" ["b"]] "g" "u" [] (by decide) (by decide)

/-- C5: a question with zero options makes the mock strategy fail with
the defined failure (`random.choice` raises on an empty sequence,
modelled as `none`) instead of producing an answer. -/
theorem C5_mock_empty_options (pick : Nat → Nat) {tt : List Question} {q : Question}
    (hq : q ∈ tt) (hopts : q.options = []) :
    get_ai_suggestions_mock pick tt = none :=
  mockLoop_none pick hq hopts 0 []

theorem C5_witness :
    get_ai_suggestions_mock (fun _ => 0) [Question.mk "x" []] = none :=
  C5_mock_empty_options (fun _ => 0) (List.mem_cons_self _ _) rfl

/-- C6 (amended: the "list() no longer contains N" part needs every
persisted template to have been saved under a name that does not contain
".json"; otherwise the name mangling of `list_templates` can still
produce N from another file, as the counterexample shows): deleting a
non-persisted name fails with the not-found error, and after a successful
delete the name neither loads nor appears in the listing. -/
theorem C6_delete (l : List (FileName × Template)) (N : FileName)
    (hclean : ∀ n ∈ l.map Prod.fst, hasSeg jsonExt n = false) :
    (N ∉ l.map Prod.fst → delete_template (mkStore l) N = none) ∧
    (N ∈ l.map Prod.fst →
      ∃ st2, delete_template (mkStore l) N = some st2 ∧
        load_template st2 N = none ∧ N ∉ list_templates st2) := by
  constructor
  · intro hN
    have hkey : mkFilename N ∉ keysOf (mkStore l) := by
      rw [keysOf_mkStore]
      intro hmem
      rcases List.mem_map.mp hmem with ⟨m, hm, he⟩
      exact hN (mkFilename_inj he ▸ hm)
    rw [delete_template, if_neg]
    intro hc
    exact hkey (List.elem_iff.mp hc)
  · intro hN
    have hkey : mkFilename N ∈ keysOf (mkStore l) := by
      rw [keysOf_mkStore]
      exact List.mem_map_of_mem mkFilename hN
    refine ⟨(mkStore l).filter (fun p => !(p.1 == mkFilename N)), ?_, ?_, ?_⟩
    · rw [delete_template, if_pos]
      exact List.elem_iff.mpr hkey
    · apply dictGet_eq_none_of_not_mem
      intro hmem
      rcases List.mem_map.mp hmem with ⟨p, hp, he⟩
      have hpred := (List.mem_filter.mp hp).2
      rw [he] at hpred
      simp at hpred
    · intro hlist
      rcases List.mem_map.mp hlist with ⟨f, hf, hfe⟩
      rcases List.mem_filter.mp hf with ⟨hfk, _⟩
      rcases List.mem_map.mp hfk with ⟨p, hp2, hpf⟩
      rcases List.mem_filter.mp hp2 with ⟨hpm, hpne⟩
      rcases List.mem_map.mp hpm with ⟨pr, hpr, hpe⟩
      have hp1 : p.1 = mkFilename pr.1 := by rw [← hpe]
      have hcln := hclean pr.1 (List.mem_map_of_mem Prod.fst hpr)
      have hrep : pyReplace (mkFilename pr.1) jsonExt [] = pr.1 := scanReplace_clean pr.1 hcln
      have hprN : pr.1 = N := by
        rw [← hrep, ← hp1, hpf]
        exact hfe
      have : p.1 ≠ mkFilename N := by
        intro he
        rw [he] at hpne
        simp at hpne
      exact this (by rw [hp1, hprN])

/-- C6's listing part fails as frozen: after saving templates named
"a.json" and "a", deleting "a" succeeds, yet list() still contains "a"
(mangled from the remaining file "a.json.json"). -/
theorem C6_counterexample :
    delete_template (save_template (save_template [] ("a.json".toList) []) (['a']) []) ['a']
      = some [("a.json.json".toList, [])] ∧
    ['a'] ∈ list_templates [("a.json.json".toList, [])] := by
  constructor
  · decide
  · decide

theorem C6_witness :
    (['a'] ∉ [((['a'] : FileName), ([] : Template))].map Prod.fst →
      delete_template (mkStore [(['a'], [])]) ['a'] = none) ∧
    (['a'] ∈ [((['a'] : FileName), ([] : Template))].map Prod.fst →
      ∃ st2, delete_template (mkStore [(['a'], [])]) ['a'] = some st2 ∧
        load_template st2 ['a'] = none ∧ ['a'] ∉ list_templates st2) :=
  C6_delete [(['a'], [])] ['a'] (by decide)

/-- C7: direct PDF extraction concatenates the pages' extracted text in
page order and trims; a parsing failure is caught and treated as no text,
handing over to the OCR fallback instead of propagating; and the
extraction pipeline always produces one string — the (non-empty) directly
extracted text or else the OCR text. -/
theorem C7_pdf_extraction (ps : List (Option String)) (ocrPages : List String) :
    extract_text_from_pdf (PdfParse.pages ps)
        = some ((String.join (ps.map (fun p => p.getD ""))).trim) ∧
    extract_text_from_pdf PdfParse.failure = none ∧
    pdf_guideline_text PdfParse.failure ocrPages = ocr_pdf ocrPages ∧
    ∀ parse : PdfParse,
      pdf_guideline_text parse ocrPages = ocr_pdf ocrPages ∨
      ∃ t, extract_text_from_pdf parse = some t ∧ ¬ t = "" ∧
        pdf_guideline_text parse ocrPages = t := by
  refine ⟨?_, rfl, rfl, ?_⟩
  · rw [extract_text_from_pdf]
    have hj : String.join (ps.map (fun p => p.getD ""))
        = ps.foldl (fun text p => text ++ p.getD "") "" := by
      rw [String.join, List.foldl_map]
    rw [hj]
  · intro parse
    cases parse with
    | failure => exact Or.inl rfl
    | pages ps' =>
      by_cases he : ((ps'.foldl (fun text p => text ++ p.getD "") "").trim) = ""
      · left
        rw [pdf_guideline_text]
        simp [extract_text_from_pdf, he]
      · right
        refine ⟨_, rfl, he, ?_⟩
        rw [pdf_guideline_text]
        simp [extract_text_from_pdf, he]

/-- C8: every answer the mock strategy produces carries the one fixed
placeholder reason; and on the concrete thesis template the result is the
single key with a chosen option among the three options and that fixed
reason. -/
theorem C8_mock_fixed_reason :
    (∀ (pick : Nat → Nat) (tt : List Question) (s : List (String × String)),
        get_ai_suggestions_mock pick tt = some s →
        ∀ kv ∈ s, ∃ c, kv.2 = "Option: " ++ c ++ "\nReason: " ++ mockReason) ∧
    (∀ pick : Nat → Nat,
        ∃ c ∈ (["Yes", "No", "Partially"] : List String),
          get_ai_suggestions_mock pick
              [Question.mk "Is the thesis clearly stated?" ["Yes", "No", "Partially"]]
            = some [("Is the thesis clearly stated?", mockAnswer c)]) := by
  constructor
  · intro pick tt s hs kv hkv
    exact mockLoop_values pick tt 0 [] s (by intro kv h; cases h) hs kv hkv
  · intro pick
    have hne : (["Yes", "No", "Partially"] : List String) ≠ [] := by decide
    have hlt : pick 0 % (["Yes", "No", "Partially"] : List String).length
        < (["Yes", "No", "Partially"] : List String).length :=
      Nat.mod_lt _ (by decide)
    refine ⟨(["Yes", "No", "Partially"] : List String).getD
      (pick 0 % (["Yes", "No", "Partially"] : List String).length) "", getD_mem hlt, ?_⟩
    rw [get_ai_suggestions_mock, mockLoop, randomChoice_eq _ hne]
    rfl

/-- C9: `list_templates` removes every ".json" occurrence from a stored
file's name.  For a name without ".json" the listing shows exactly the
saved name; saving under "a.json" stores the file "a.json.json", the
listing shows "a" — a different name — and loading the listed name
fails. -/
theorem C9_list_name_mangling (N : FileName) (T : Template) (st : Store)
    (hclean : hasSeg jsonExt N = false) :
    pyReplace (mkFilename N) jsonExt [] = N ∧
    list_templates (save_template [] N T) = [N] ∧
    N ∈ list_templates (save_template st N T) ∧
    list_templates (save_template [] ("a.json".toList) T) = ["a".toList] ∧
    load_template (save_template [] ("a.json".toList) T) ("a".toList) = none ∧
    ("a.json".toList : FileName) ≠ "a".toList := by
  have hrep : pyReplace (mkFilename N) jsonExt [] = N := scanReplace_clean N hclean
  refine ⟨hrep, ?_, ?_, by rfl, by rfl, by decide⟩
  · have hsave : save_template [] N T = [(mkFilename N, T)] := by
      rw [save_template, dictInsert]
      simp
    have hrep2 : pyReplace (N ++ jsonExt) jsonExt [] = N := hrep
    rw [hsave, list_templates]
    simp [keysOf, mkFilename, List.filter, isSuffixOf_append_self N, hrep2]
  · have hkmem : mkFilename N ∈ keysOf (save_template st N T) := by
      rw [save_template]
      exact (mem_keysOf_dictInsert T).mpr (Or.inr rfl)
    rw [list_templates]
    exact List.mem_map.mpr ⟨mkFilename N,
      List.mem_filter.mpr ⟨hkmem, isSuffixOf_append_self N⟩, hrep⟩

theorem C9_witness :
    pyReplace (mkFilename "b".toList) jsonExt [] = "b".toList ∧
    list_templates (save_template [] "b".toList []) = ["b".toList] ∧
    "b".toList ∈ list_templates (save_template [] "b".toList []) ∧
    list_templates (save_template [] ("a.json".toList) []) = ["a".toList] ∧
    load_template (save_template [] ("a.json".toList) []) ("a".toList) = none ∧
    ("a.json".toList : FileName) ≠ "a".toList :=
  C9_list_name_mangling "b".toList [] [] (by decide)

/-- C10: with duplicate question texts, both strategies return a dict
with a single entry for the duplicated text, holding the answer computed
for its last occurrence (index `l₁.length`); the dict has one entry per
distinct text, which is fewer entries than the template has questions. -/
theorem C10_duplicate_collapse (pick : Nat → Nat) (net : Nat → String → HttpOutcome)
    (g u : String) (imgs : List String) (key : String)
    (l₁ l₂ : List Question) (q : Question)
    (hk : key ≠ "")
    (hdup : q.question ∈ l₁.map Question.question)
    (hlast : q.question ∉ l₂.map Question.question)
    (hopts : ∀ p ∈ l₁ ++ q :: l₂, p.options ≠ []) :
    (∃ s, get_ai_suggestions_mock pick (l₁ ++ q :: l₂) = some s ∧
      dictGet q.question s
        = some (mockAnswer (q.options.getD (pick l₁.length % q.options.length) "")) ∧
      (keysOf s).Nodup ∧
      (∀ x, x ∈ keysOf s ↔ x ∈ (l₁ ++ q :: l₂).map Question.question) ∧
      s.length < (l₁ ++ q :: l₂).length) ∧
    (dictGet q.question
        (get_ai_suggestions_openrouter (some key) net (l₁ ++ q :: l₂) g u imgs).suggestions
        = some (answerOfOutcome (net l₁.length (buildPrompt g u imgs q))) ∧
      (keysOf (get_ai_suggestions_openrouter (some key) net (l₁ ++ q :: l₂) g u imgs).suggestions).Nodup ∧
      (∀ x, x ∈ keysOf (get_ai_suggestions_openrouter (some key) net (l₁ ++ q :: l₂) g u imgs).suggestions
        ↔ x ∈ (l₁ ++ q :: l₂).map Question.question) ∧
      (get_ai_suggestions_openrouter (some key) net (l₁ ++ q :: l₂) g u imgs).suggestions.length
        < (l₁ ++ q :: l₂).length) := by
  have htexts : ¬ ((l₁ ++ q :: l₂).map Question.question).Nodup := by
    rw [List.map_append, List.map_cons]
    exact not_nodup_of_split hdup
  have hlen : ((l₁ ++ q :: l₂).map Question.question).length = (l₁ ++ q :: l₂).length :=
    List.length_map _ _
  constructor
  · -- mock strategy
    refine ⟨dictFold [] (mockItems pick 0 (l₁ ++ q :: l₂)),
      mockLoop_eq_dictFold pick hopts 0 [], ?_, ?_, ?_, ?_⟩
    · have hitems : mockItems pick 0 (l₁ ++ q :: l₂)
          = mockItems pick 0 l₁ ++
            (q.question, mockAnswer (q.options.getD (pick (0 + l₁.length) % q.options.length) ""))
              :: mockItems pick (0 + l₁.length + 1) l₂ := by
        rw [mockItems_append pick l₁ (q :: l₂) 0]
        rfl
      rw [hitems, Nat.zero_add]
      apply dictGet_dictFold_last
      rw [keysOf_mockItems]
      exact hlast
    · exact nodup_keysOf_dictFold [] _ List.nodup_nil
    · intro x
      rw [mem_keysOf_dictFold, keysOf_mockItems]
      simp [keysOf]
    · have h1 : (keysOf (dictFold [] (mockItems pick 0 (l₁ ++ q :: l₂)))).length
          < ((l₁ ++ q :: l₂).map Question.question).length := by
        apply nodup_sub_length (nodup_keysOf_dictFold [] _ List.nodup_nil)
        · intro x hx
          rw [mem_keysOf_dictFold, keysOf_mockItems] at hx
          rcases hx with hx | hx
          · simp [keysOf] at hx
          · exact hx
        · exact htexts
      rw [keysOf, List.length_map] at h1
      rw [← hlen]
      exact h1
  · -- remote strategy
    rw [openrouter_eq key net (l₁ ++ q :: l₂) g u imgs hk]
    refine ⟨?_, ?_, ?_, ?_⟩
    · show dictGet q.question (dictFold [] (remoteItems net g u imgs 0 (l₁ ++ q :: l₂)))
        = some (answerOfOutcome (net (l₁.length) (buildPrompt g u imgs q)))
      have hitems : remoteItems net g u imgs 0 (l₁ ++ q :: l₂)
          = remoteItems net g u imgs 0 l₁ ++
            (q.question, answerOfOutcome (net (0 + l₁.length) (buildPrompt g u imgs q)))
              :: remoteItems net g u imgs (0 + l₁.length + 1) l₂ := by
        rw [remoteItems_append net g u imgs l₁ (q :: l₂) 0]
        rfl
      rw [hitems, Nat.zero_add]
      apply dictGet_dictFold_last
      rw [keysOf_remoteItems]
      exact hlast
    · exact nodup_keysOf_dictFold [] _ List.nodup_nil
    · intro x
      rw [mem_keysOf_dictFold, keysOf_remoteItems]
      simp [keysOf]
    · have h1 : (keysOf (dictFold [] (remoteItems net g u imgs 0 (l₁ ++ q :: l₂)))).length
          < ((l₁ ++ q :: l₂).map Question.question).length := by
        apply nodup_sub_length (nodup_keysOf_dictFold [] _ List.nodup_nil)
        · intro x hx
          rw [mem_keysOf_dictFold, keysOf_remoteItems] at hx
          rcases hx with hx | hx
          · simp [keysOf] at hx
          · exact hx
        · exact htexts
      rw [keysOf, List.length_map] at h1
      rw [← hlen]
      exact h1

theorem C10_witness :
    (∃ s, get_ai_suggestions_mock (fun _ => 0)
          ([Question.mk "q" ["a"]] ++ Question.mk "q" ["b", "c"] :: []) = some s ∧
      dictGet (Question.mk "q" ["b", "c"]).question s
        = some (mockAnswer ((Question.mk "q" ["b", "c"]).options.getD
            ((fun _ : Nat => 0) [Question.mk "q" ["a"]].length
              % (Question.mk "q" ["b", "c"]).options.length) "")) ∧
      (keysOf s).Nodup ∧
      (∀ x, x ∈ keysOf s ↔
        x ∈ ([Question.mk "q" ["a"]] ++ Question.mk "q" ["b", "c"] :: []).map Question.question) ∧
      s.length < ([Question.mk "q" ["a"]] ++ Question.mk "q" ["b", "c"] :: []).length) ∧
    (dictGet (Question.mk "q" ["b", "c"]).question
        (get_ai_suggestions_openrouter (some "k") (fun _ _ => HttpOutcome.requestError "down")
          ([Question.mk "q" ["a"]] ++ Question.mk "q" ["b", "c"] :: []) "g" "u" []).suggestions
        = some (answerOfOutcome ((fun _ _ => HttpOutcome.requestError "down")
            [Question.mk "q" ["a"]].length
            (buildPrompt "g" "u" [] (Question.mk "q" ["b", "c"])))) ∧
      (keysOf (get_ai_suggestions_openrouter (some "k") (fun _ _ => HttpOutcome.requestError "down")
          ([Question.mk "q" ["a"]] ++ Question.mk "q" ["b", "c"] :: []) "g" "u" []).suggestions).Nodup ∧
      (∀ x, x ∈ keysOf (get_ai_suggestions_openrouter (some "k")
            (fun _ _ => HttpOutcome.requestError "down")
            ([Question.mk "q" ["a"]] ++ Question.mk "q" ["b", "c"] :: []) "g" "u" []).suggestions
        ↔ x ∈ ([Question.mk "q" ["a"]] ++ Question.mk "q" ["b", "c"] :: []).map Question.question) ∧
      (get_ai_suggestions_openrouter (some "k") (fun _ _ => HttpOutcome.requestError "down")
          ([Question.mk "q" ["a"]] ++ Question.mk "q" ["b", "c"] :: []) "g" "u" []).suggestions.length
        < ([Question.mk "q" ["a"]] ++ Question.mk "q" ["b", "c"] :: []).length) :=
  C10_duplicate_collapse (fun _ => 0) (fun _ _ => HttpOutcome.requestError "down")
    "g" "u" [] "k" [Question.mk "q" ["a"]] [] (Question.mk "q" ["b", "c"])
    (by decide) (by decide) (by decide) (by decide)
